import Mathlib

/-!
Verification of the CCDD code-generation scripts (nasa/CCDD, `scripts/` directory).

This file gives a shallow embedding of the script logic that the claims concern:

* `extractMessageID` / `extractCommandID` (itosRecFile.py, lines 316-352),
* `reorderRowsForByteOrder` (itosRecFile.py, lines 116-179),
* `outputFileCreationInfo` and the cFE ES start-up renderer (cFEESStartup.py),
* the copy-table column-width computation (copyTable.py),
* `outputPolynomial` (itosRecFile.py, lines 969-985),
* `outputStructureDefinition` (itosRecFile.py, lines 194-304),
* the structure-member loops of typesHeader.py and cfs_ros_msg_gen.py,
* the zero-input-row and file-open checks of the script mains.

The scripts run inside the CCDD host tool; every host service is reached through the
bound access object `ccdd`.  Host-supplied data (table rows, data-field values,
byte offsets, encoded data types) is modelled as explicit input to the embedded
functions.  Python `None` is modelled with `Option`; a Python exception that the
script does not catch is modelled by an `Option`/`Except` failure result.
-/

set_option autoImplicit false

deriving instance DecidableEq for Except

namespace CCDD

/-! ## Basic string helpers shared by the embeddings -/

/-- Python `sep.join(list)`. -/
def joinSep (sep : String) : List String → String
  | [] => ""
  | [x] => x
  | x :: y :: rest => x ++ sep ++ joinSep sep (y :: rest)

/-- Lexicographic comparison of character lists by code point, the order Python
uses for `sorted` on strings. -/
def listLexLt : List Char → List Char → Bool
  | [], [] => false
  | [], _ :: _ => true
  | _ :: _, [] => false
  | a :: as, b :: bs =>
    if a.toNat < b.toNat then true else if b.toNat < a.toNat then false else listLexLt as bs

/-- Python string comparison `s < t` (lexicographic by code point). -/
def strLt (s t : String) : Bool := listLexLt s.data t.data

/-- Python `s.endswith(suffix)`: `suffix` is a suffix of `s`. -/
def pyEndsWith (s suffix : String) : Bool :=
  s.data.reverse.take suffix.data.length == suffix.data.reverse

/-- Insert a string into a sorted list, used to model Python `sorted(...)`. -/
def insertSorted (s : String) : List String → List String
  | [] => [s]
  | t :: rest => if strLt t s then t :: insertSorted s rest else s :: t :: rest

/-- Python `sorted(...)` on a list of strings (insertion sort by the usual order). -/
def sortStrings : List String → List String
  | [] => []
  | s :: rest => insertSorted s (sortStrings rest)

/-- A run of `n` copies of one character, used for field padding. -/
def charRun (c : Char) (n : Nat) : String :=
  String.mk (List.replicate n c)

/-! ## Hexadecimal parsing and formatting (itosRecFile.py)

`extractMessageID` and `extractCommandID` first test the message ID against the
regular expression `(0x)?[0-9a-fA-F]+` with `re.match` (anchored at the start,
not at the end), then convert the whole string with Python `int(msgID, 16)` and
format the masked value with `"{0:04x}".format` / `"{0:03x}".format`.
-/

/-- Character class `[0-9a-fA-F]` of the regular expression in the scripts. -/
def isHexDigitChar (c : Char) : Bool :=
  ('0' ≤ c && c ≤ '9') || ('a' ≤ c && c ≤ 'f') || ('A' ≤ c && c ≤ 'F')

/-- Result of `re.match("(0x)?[0-9a-fA-F]+", s)` being truthy.  The group `(0x)?` may
match the empty string and `'0'` is itself a hex digit, so with backtracking the
pattern matches at the start of `s` exactly when the first character of `s` is a
hexadecimal digit. -/
def reMatchHex (s : String) : Bool :=
  match s.data with
  | [] => false
  | c :: _ => isHexDigitChar c

/-- Numeric value of a hexadecimal digit character. -/
def hexDigitVal (c : Char) : Nat :=
  if c ≤ '9' then c.toNat - 48 else if c ≤ 'F' then c.toNat - 55 else c.toNat - 87

/-- Whitespace stripped by Python `int(...)` around the literal (ASCII whitespace). -/
def isPySpace (c : Char) : Bool :=
  c = ' ' || c = '\t' || c = '\n' || c = '\r' || c = '\x0b' || c = '\x0c'

/-- Continuation of a Python hex digit run: digits with optional single
underscores between digits (`digit (["_"] digit)*`). -/
def parseHexDigitsAux : Nat → List Char → Option Nat
  | acc, [] => some acc
  | acc, '_' :: c :: rest =>
    if isHexDigitChar c then parseHexDigitsAux (16 * acc + hexDigitVal c) rest else none
  | _, ['_'] => none
  | acc, c :: rest =>
    if isHexDigitChar c then parseHexDigitsAux (16 * acc + hexDigitVal c) rest else none

/-- A nonempty Python hex digit run (`digit (["_"] digit)*`). -/
def parseHexDigits : List Char → Option Nat
  | [] => none
  | c :: rest => if isHexDigitChar c then parseHexDigitsAux (hexDigitVal c) rest else none

/-- Digits after an explicit `0x` prefix; Python permits one underscore directly
after the base prefix. -/
def parseHexAfterPrefix : List Char → Option Nat
  | '_' :: rest => parseHexDigits rest
  | rest => parseHexDigits rest

/-- Magnitude part of a Python hex literal: optional `0x`/`0X` prefix, then digits. -/
def parseHexMagnitude : List Char → Option Nat
  | '0' :: 'x' :: rest => parseHexAfterPrefix rest
  | '0' :: 'X' :: rest => parseHexAfterPrefix rest
  | l => parseHexDigits l

/-- Python `int(s, 16)`: surrounding whitespace stripped, optional sign, optional
`0x`/`0X` prefix, then a nonempty underscore-separated hex digit run consuming the
whole remainder.  `none` models the `ValueError` raised on any other input. -/
def pyIntHex (s : String) : Option Int :=
  let t := ((s.data.dropWhile isPySpace).reverse.dropWhile isPySpace).reverse
  match t with
  | '+' :: rest => (parseHexMagnitude rest).map (fun n => (n : Int))
  | '-' :: rest => (parseHexMagnitude rest).map (fun n => -(n : Int))
  | rest => (parseHexMagnitude rest).map (fun n => (n : Int))

/-- Lowercase hexadecimal digit character for a value below 16. -/
def hexDigitChar (n : Nat) : Char :=
  if n < 10 then Char.ofNat (48 + n) else Char.ofNat (87 + n)

/-- Fuelled digit expansion for lowercase hexadecimal rendering (the fuel is
always at least the value, which bounds the number of divisions by 16). -/
def natToHexAux : Nat → Nat → List Char
  | 0, _ => []
  | fuel + 1, n =>
    if n < 16 then [hexDigitChar n] else natToHexAux fuel (n / 16) ++ [hexDigitChar (n % 16)]

/-- Lowercase hexadecimal rendering of a natural number (`"{0:x}".format`). -/
def natToHex (n : Nat) : String :=
  String.mk (natToHexAux (n + 1) n)

/-- Python `"{0:0Wx}".format(n)` for a nonnegative value: lowercase hex digits,
left-padded with zeros to at least width `w`. -/
def zeroPadHex (w : Nat) (n : Nat) : String :=
  charRun '0' (w - (natToHex n).length) ++ natToHex n

/-- Embedding of `extractMessageID` (itosRecFile.py, lines 316-328).  The Python body
sets `retVal = "0000"`, overwrites it with `"{0:04x}".format(val & 0x7ff)` when the
regular expression matches, and returns `"0x" + retVal`.  On arbitrary-precision
integers Python's `val & 0x7ff` agrees with `val % 0x800` (also for negative
`val`), which is what `% (0x800 : Int)` computes here since `Int.emod` is
nonnegative for a positive modulus.  `none` models the uncaught `ValueError` of
`int(msgID, 16)` when the regular expression matched only a prefix. -/
def extractMessageID (msgID : String) : Option String :=
  if reMatchHex msgID then
    match pyIntHex msgID with
    | some val => some ("0x" ++ zeroPadHex 4 (val % (0x800 : Int)).toNat)
    | none => none
  else
    some ("0x" ++ "0000")

/-- Embedding of `extractCommandID` (itosRecFile.py, lines 340-352); identical to
`extractMessageID` except that the fallback is `"000"` and the format is
`"{0:03x}"`. -/
def extractCommandID (msgID : String) : Option String :=
  if reMatchHex msgID then
    match pyIntHex msgID with
    | some val => some ("0x" ++ zeroPadHex 3 (val % (0x800 : Int)).toNat)
    | none => none
  else
    some ("0x" ++ "000")

/-! ## Structure table rows (itosRecFile.py)

One row of the structure table data, as seen through the `ccdd` access object.
Each field records what the corresponding host call returns for this row:
`structName` is `ccdd.getStructureTableNameByRow(row)`, `variableName` is
`ccdd.getStructureVariableName(row)`, `offset` is
`ccdd.getVariableOffset(ccdd.getFullVariableNameRaw(row))`, `fullPathComma` is
`ccdd.getFullVariableName(row, ",")`, and `itosEncode2Char` is
`ccdd.getITOSEncodedDataType(dataType, "TWO_CHAR")` (`none` models a Python
`None` return). -/
structure ItosRow where
  structName : String
  variableName : Option String
  dataType : String
  arraySize : Option String
  bitLength : Option String
  offset : Nat
  fullPathComma : String
  itosEncode2Char : Option String
  deriving DecidableEq, Repr

/-- Python `range(a, b)` as a list. -/
def pyRange (a b : Nat) : List Nat :=
  if a < b then List.range' a (b - a) else []

/-- Value of `ccdd.getStructureTableNameByRow(row)` given the table rows. -/
def structureTableNameByRow (rows : List ItosRow) (row : Nat) : String :=
  ((rows.get? row).map ItosRow.structName).getD ""

/-- Byte offset of the variable on a table row
(`ccdd.getVariableOffset(ccdd.getFullVariableNameRaw(row))`). -/
def variableOffset (rows : List ItosRow) (row : Nat) : Nat :=
  ((rows.get? row).map ItosRow.offset).getD 0

/-- Inner comparison loop of `reorderRowsForByteOrder` (itosRecFile.py, lines
140-164): step through the candidate comparison rows, counting while the
comparison row belongs to the target structure and shares the target's byte
offset, and stop at the first row that does not (both `else` branches
`break`). -/
def packedRun (rows : List ItosRow) (tgtStructName : String) (tgtOffset : Nat) :
    List Nat → Nat
  | [] => 0
  | compRow :: rest =>
    if structureTableNameByRow rows compRow = tgtStructName then
      if variableOffset rows compRow = tgtOffset then
        1 + packedRun rows tgtStructName tgtOffset rest
      else 0
    else 0

/-- Body of the `for tgtRow in range(numStructRows)` loop of
`reorderRowsForByteOrder` for little-endian output (itosRecFile.py, lines
128-177).  In the Python source the comparison loop is
`for compRow in range(row + 1, numStructRows - 1)` where `row` is the loop
variable of the *initialization* loop (line 120), which after that loop holds
its final value `numStructRows - 1`; the body below reproduces that stale
variable faithfully.  The final `tgtRow = tgtRow + packCount - 1` of the source
does not affect a Python `for` iteration and therefore has no counterpart
here. -/
def reorderLEStep (rows : List ItosRow) (reOrdered : List Nat) (tgtRow : Nat) : List Nat :=
  let numStructRows := rows.length
  let row := numStructRows - 1
  let tgtStructName := structureTableNameByRow rows tgtRow
  let tgtOffset := variableOffset rows tgtRow
  let packCount := 1 + packedRun rows tgtStructName tgtOffset (pyRange (row + 1) (numStructRows - 1))
  if packCount > 1 then
    (List.range packCount).foldl
      (fun acc index => acc.set (tgtRow + index) (tgtRow + packCount - index - 1)) reOrdered
  else reOrdered

/-- Embedding of `reorderRowsForByteOrder` (itosRecFile.py, lines 116-179): build
the row-index array `[0, 1, ...]`, and for little-endian output run the
bit-packing pass over every target row. -/
def reorderRowsForByteOrder (endian : String) (rows : List ItosRow) : List Nat :=
  let numStructRows := rows.length
  let reOrdered := List.range numStructRows
  if endian = "LE" then
    (List.range numStructRows).foldl (reorderLEStep rows) reOrdered
  else reOrdered

/-- Two rows of one structure bit-packed at the same byte offset. -/
def packedPairRows : List ItosRow :=
  [{ structName := "S", variableName := some "bitA", dataType := "uint8",
     arraySize := some "", bitLength := some "4", offset := 0,
     fullPathComma := "bitA", itosEncode2Char := some "U1" },
   { structName := "S", variableName := some "bitB", dataType := "uint8",
     arraySize := some "", bitLength := some "4", offset := 0,
     fullPathComma := "bitB", itosEncode2Char := some "U1" }]

/-! ## File-creation headers (cFEESStartup.py, itosRecFile.py, copyTable.py)

`outputFileCreationInfo` writes a comment header built from host environment
values.  The environment record collects what the host calls return during one
script run: `ccdd.getDateAndTime()`, `ccdd.getUser()`, `ccdd.getProject()`,
`ccdd.getScriptName()`, `ccdd.getTableNumRows()`, `ccdd.getTableNames()` and
`ccdd.getAssociatedGroupNames()`. -/
structure CreationInfoEnv where
  dateAndTime : String
  user : String
  project : String
  scriptName : String
  tableNumRows : Nat
  tableNames : List String
  associatedGroupNames : List String
  deriving DecidableEq, Repr

/-- `ccdd.writeToFileLn(file, s)` appends `s` and a line feed to the file text. -/
def writeLn (s : String) : String := s ++ "\n"

/-- Embedding of `outputFileCreationInfo` as written in cFEESStartup.py (lines
37-49): the creation header, the sorted table-name list when any table rows are
associated with the script, the sorted group-name list when any group is, and
the closing `*/` (itosRecFile.py's copy, lines 34-46, is identical except that
its final line is `"*/"` without the extra blank line). -/
def outputFileCreationInfo (env : CreationInfoEnv) : String :=
  writeLn ("/* Created : " ++ env.dateAndTime ++ "\n   User    : " ++ env.user ++
      "\n   Project : " ++ env.project ++ "\n   Script  : " ++ env.scriptName) ++
    (if env.tableNumRows ≠ 0 then
      writeLn ("   Table(s): " ++ joinSep ",\n             " (sortStrings env.tableNames))
    else "") ++
    (if env.associatedGroupNames.length ≠ 0 then
      writeLn ("   Group(s): " ++ joinSep ",\n             " (sortStrings env.associatedGroupNames))
    else "") ++
    writeLn "*/\n"

/-! ## Fixed-width column rendering (cFEESStartup.py, copyTable.py)

`ccdd.writeToFileFormat` interprets C-style format strings; the scripts build
those from computed column widths (`"%-Ws"` pads on the right to width `W`,
`"%Ws"` pads on the left). -/

/-- Modelled from the spec: the `%-Ws` conversion of `ccdd.writeToFileFormat`
(host-side formatting, not part of the scripts): left-justify the string in a
field of width `w`, never truncating. -/
def padLeftJust (w : Nat) (s : String) : String := s ++ charRun ' ' (w - s.length)

/-- Modelled from the spec: the `%Ws` conversion of `ccdd.writeToFileFormat`:
right-justify the string in a field of width `w`, never truncating. -/
def padRightJust (w : Nat) (s : String) : String := charRun ' ' (w - s.length) ++ s

/-- Length of the longest string observed in column `i` over all entries. -/
def columnLongest (entries : List (List String)) (i : Nat) : Nat :=
  entries.foldl (fun m e => max m ((e.getD i "").length)) 0

/-- Modelled from the spec: `ccdd.getLongestStrings(entries, minWidths)` (a host
helper; the spec's fixed-width renderers "compute a fixed-width text column
layout from the longest observed value per column", the width of each column
being the supplied minimum enlarged to the longest observed string). -/
def getLongestStrings (entries : List (List String)) (minWidths : List Nat) : List Nat :=
  (List.range minWidths.length).map
    (fun i => max (minWidths.getD i 0) (columnLongest entries i))

/-- Default column widths of `makeESStartupFile` (cFEESStartup.py, line 71). -/
def esDefaultColumnWidth : List Nat := [7, 6, 5, 4, 8, 5, 9]

/-- Column widths used by `makeESStartupFile` (cFEESStartup.py, line 81). -/
def esColumnWidths (startupEntries : List (List String)) : List Nat :=
  getLongestStrings startupEntries esDefaultColumnWidth

/-- One `%-Ws` field of the ES start-up `formatBody` (column `i` of an entry). -/
def esField (w : List Nat) (e : List String) (i : Nat) : String :=
  padLeftJust (w.getD i 0) (e.getD i "")

/-- One data row written by `makeESStartupFile` via `formatBody`
(cFEESStartup.py, lines 85 and 94): six computed-width columns, the fixed
`"0x0"` unused column, and the exception action. -/
def esStartupBodyLine (w : List Nat) (e : List String) : String :=
  "   " ++ esField w e 0 ++ " , " ++ esField w e 1 ++ " , " ++ esField w e 2 ++ " , " ++
    esField w e 3 ++ " , " ++ esField w e 4 ++ " , " ++ esField w e 5 ++ " , " ++
    padLeftJust 6 "0x0" ++ " , " ++ e.getD 6 "" ++ ";\n"

/-- One title row written by `makeESStartupFile` via `formatHeader`
(cFEESStartup.py, lines 84 and 88-89). -/
def esStartupHeaderLine (w : List Nat) (c : List String) : String :=
  "/* " ++ padLeftJust (w.getD 0 0) (c.getD 0 "") ++ " | " ++
    padLeftJust (w.getD 1 0) (c.getD 1 "") ++ " | " ++
    padLeftJust (w.getD 2 0) (c.getD 2 "") ++ " | " ++
    padLeftJust (w.getD 3 0) (c.getD 3 "") ++ " | " ++
    padLeftJust (w.getD 4 0) (c.getD 4 "") ++ " | " ++
    padLeftJust (w.getD 5 0) (c.getD 5 "") ++ " | " ++
    padLeftJust 6 (c.getD 6 "") ++ " | " ++ c.getD 7 "" ++ " */\n"

/-- Full text written by `makeESStartupFile` (cFEESStartup.py, lines 57-97) when
the output file opens: the creation header, the two column-title rows, and one
`formatBody` row per start-up entry. -/
def makeESStartupFileText (env : CreationInfoEnv) (startupEntries : List (List String)) :
    String :=
  outputFileCreationInfo env ++
    esStartupHeaderLine (esColumnWidths startupEntries)
      ["Module", "Path &", "Entry", "cFE", "Priority", "Stack", "Unused", "Exception"] ++
    esStartupHeaderLine (esColumnWidths startupEntries)
      ["Type", "File", "Point", "Name", "", "Size", "", "Action"] ++
    String.join (startupEntries.map (esStartupBodyLine (esColumnWidths startupEntries)))

/-- Copy-table capacity (`copyTable.py`, line 23). -/
def HK_COPY_TABLE_ENTRIES : Nat := 1800

/-- Default column widths of `makeCopyTableFile` (copyTable.py, line 80). -/
def hkDefaultColumnWidth : List Nat := [10, 6, 10, 6, 5, 0, 0]

/-- Column widths accumulated over the data streams (copyTable.py, lines 83-119):
for each data stream with a nonempty copy table, enlarge the widths to that
stream's longest strings. -/
def hkAccumWidths (allTableEntries : List (List (List String))) : List Nat :=
  allTableEntries.foldl
    (fun w copyTableEntries =>
      if copyTableEntries.length > 0 then getLongestStrings copyTableEntries w else w)
    hkDefaultColumnWidth

/-- Total number of copy table entries over all data streams (copyTable.py, line 119). -/
def hkTotalEntries (allTableEntries : List (List (List String))) : Nat :=
  allTableEntries.foldl (fun t copyTableEntries => t + copyTableEntries.length) 0

/-- One width adjustment of copyTable.py, lines 124-129: enlarge column `i` to
the width of `"HK_UNDEFINED_ENTRY"` if it is smaller. -/
def hkAdjustWidth (w : List Nat) (i : Nat) : List Nat :=
  if w.getD i 0 < "HK_UNDEFINED_ENTRY".length then w.set i "HK_UNDEFINED_ENTRY".length else w

/-- Column widths used to build `formatBody` in copyTable.py (line 154): the
accumulated widths, with the input and output message-ID columns enlarged for
`HK_UNDEFINED_ENTRY` when unused rows remain (lines 122-129). -/
def hkFinalWidths (allTableEntries : List (List (List String))) : List Nat :=
  if hkTotalEntries allTableEntries < HK_COPY_TABLE_ENTRIES then
    hkAdjustWidth (hkAdjustWidth (hkAccumWidths allTableEntries) 0) 2
  else hkAccumWidths allTableEntries

/-- One field of the copy-table `formatBody` (copyTable.py, line 154): columns 0
and 2 (the message IDs) are left-justified (`%-Ws`), columns 1, 3 and 4 are
right-justified (`%Ws`). -/
def hkField (w : List Nat) (e : List String) (i : Nat) : String :=
  if i = 0 || i = 2 then padLeftJust (w.getD i 0) (e.getD i "")
  else padRightJust (w.getD i 0) (e.getD i "")

/-- One data row written by `makeCopyTableFile` via `formatBody` (copyTable.py,
lines 154 and 180): the five fixed-width columns, the comma, and the trailing
comment with the entry index, parent and variable name. -/
def hkBodyLine (w : List Nat) (e : List String) (comma : String) (entryIndex : Nat) : String :=
  "  \x7b" ++ hkField w e 0 ++ ", " ++ hkField w e 1 ++ ", " ++ hkField w e 2 ++ ", " ++
    hkField w e 3 ++ ", " ++ hkField w e 4 ++ "\x7d" ++ comma ++ "  /* (" ++
    padRightJust (toString HK_COPY_TABLE_ENTRIES).length (toString entryIndex) ++ ") " ++
    e.getD 5 "" ++ " : " ++ e.getD 6 "" ++ " */\n"

/-- Default column widths of the schedule definition table loop of
appScheduler.py (line 219), reinitialized for every time slot. -/
def sdtDefaultColumnWidth : List Nat := [1, 1, 1, 1, 1, 1]

/-- Column widths used for one time slot of the schedule definition table
(appScheduler.py, lines 216-224): the per-slot entries enlarge the default
minimum widths when the slot has any entries. -/
def sdtColumnWidths (sdtEntries : List (List String)) : List Nat :=
  if sdtEntries.length > 0 then getLongestStrings sdtEntries sdtDefaultColumnWidth
  else sdtDefaultColumnWidth

/-- One field of the schedule definition table `formatBody` (appScheduler.py,
line 227): columns 0 (enable state) and 5 (group data) are left-justified
(`%-Ws`), columns 1-4 are right-justified (`%Ws`). -/
def sdtField (w : List Nat) (e : List String) (i : Nat) : String :=
  if i = 0 || i = 5 then padLeftJust (w.getD i 0) (e.getD i "")
  else padRightJust (w.getD i 0) (e.getD i "")

/-- One data row written by the schedule definition table loop via `formatBody`
(appScheduler.py, lines 227 and 230-239): the six fixed-width columns and the
trailing comma. -/
def sdtBodyLine (w : List Nat) (e : List String) (comma : String) : String :=
  "    \x7b" ++ sdtField w e 0 ++ ", " ++ sdtField w e 1 ++ ", " ++ sdtField w e 2 ++ ", " ++
    sdtField w e 3 ++ ", " ++ sdtField w e 4 ++ ", " ++ sdtField w e 5 ++ "\x7d" ++ comma ++ "\n"

/-! ## Polynomial conversion output (itosRecFile.py, lines 969-985) -/

/-- Split a character list on a separator character, keeping empty groups. -/
def splitOnCharAux (sep : Char) : List Char → List (List Char)
  | [] => [[]]
  | c :: rest =>
    match splitOnCharAux sep rest with
    | [] => [[]]
    | g :: gs => if c = sep then [] :: g :: gs else (c :: g) :: gs

/-- Modelled from the spec: `ccdd.getArrayFromString(text, sep)` (a host helper;
per the spec's conversion/limit emitters it separates a delimited data-field
value into an array on the given separator, such as `"|"`). -/
def getArrayFromString (text : String) (sep : Char) : List String :=
  (splitOnCharAux sep text.data).map String.mk

/-- Embedding of `outputPolynomial` (itosRecFile.py, lines 969-985); the result
is the text appended to the telemetry file.  `pfx` is the Python parameter
`prefix`.  The loop over the remaining coefficients is
`for index in range(1, len(coeffs) - 1)`, i.e. it covers the indices
`1 .. len(coeffs) - 2`, which is `coeffs.drop 1 |>.dropLast` here.  `none`
models the `IndexError` of `coeffs[0]` on an empty array (unreachable from the
script's callers). -/
def outputPolynomial ( pfx : String) (variableName : String) (coeffs : List String) :
    Option String :=
  match coeffs with
  | [] => none
  | c0 :: rest =>
    some ("\n" ++ "PolynomialConversion " ++ pfx ++ variableName ++ "_CONVERSION" ++
      "\x7b\n" ++ "  coefficients = \x7b" ++ c0 ++
      String.join (rest.dropLast.map (fun c => ", " ++ c)) ++ "\x7d\n" ++ "\x7d\n")

/-! ## Script main control flow: missing input data (C7)

Effects a script performs, in order.  `raiseNameError` is the propagation of a
Python `NameError` from a call to a bare, unbound name.

Modelled from the spec: the scripts reach every host service through the bound
access object `ccdd` ("a fixed host-provided access object", spec section 1;
the error-dialog presentation call is listed among the access object's file I/O
helpers in section 6).  A bare `showErrorDialog(...)` therefore refers to a
name that is bound neither by the script nor by the host, and Python raises
`NameError` when the call's name is looked up, before any dialog can be
shown. -/
inductive ScriptEffect where
  | errorDialog (msg : String)
  | raiseNameError (name : String)
  | openFile (name : String)
  deriving DecidableEq, Repr

/-- Top-level control flow of msgidHeader.py (lines 13-20): with no structure
rows, or with structure rows but no command rows, the script calls the bare
name `showErrorDialog` (lines 15 and 18) — not `ccdd.showErrorDialog` — which
raises `NameError` and halts the script; otherwise the body runs (`body` stands
for the effects of the else branch, lines 20-124). -/
def msgidHeaderMain (numStructRows numCommandRows : Nat) (body : List ScriptEffect) :
    List ScriptEffect :=
  if numStructRows = 0 then [ScriptEffect.raiseNameError "showErrorDialog"]
  else if numCommandRows = 0 then [ScriptEffect.raiseNameError "showErrorDialog"]
  else body

/-- Top-level control flow of typesHeader.py (lines 12-16): with no structure
rows the script shows `ccdd.showErrorDialog(...)` (line 14) and does nothing
else; otherwise the body runs (lines 16-123). -/
def typesHeaderMain (numStructRows : Nat) (scriptName : String) (body : List ScriptEffect) :
    List ScriptEffect :=
  if numStructRows = 0 then
    [ScriptEffect.errorDialog ("No structure data supplied to script " ++ scriptName)]
  else body

/-- Top-level control flow of itosRecFile.py (lines 1085-1089): with neither
structure nor command rows the script calls the bare name `showErrorDialog`
(line 1087), which raises `NameError`; otherwise the body runs. -/
def itosRecFileMain (numStructRows numCommandRows : Nat) (body : List ScriptEffect) :
    List ScriptEffect :=
  if numStructRows = 0 ∧ numCommandRows = 0 then
    [ScriptEffect.raiseNameError "showErrorDialog"]
  else body

/-! ## Telemetry output file open check (itosRecFile.py, lines 1216-1251, C6) -/

/-- Observable outcome of the telemetry-file open check: whether the script goes
on to write the headers and record definitions to the telemetry (`.rec`) handle
and to the `common.rec` handle, and whether it shows an error dialog. -/
structure ItosTlmOpenOutcome where
  wroteTlm : Bool
  wroteComb : Bool
  dialogShown : Bool
  deriving DecidableEq, Repr

/-- Embedding of the check at itosRecFile.py lines 1220-1251.  The script opens
both files (`tlmFile`, `combFile`; `none` models a failed `ccdd.openOutputFile`
returning `None`).  The source tests `tlmFile is not None or combFile is not
None`; when that disjunction holds it writes the creation headers, structures,
conversions, limits and mnemonics to *both* handles (lines 1226-1247), and only
when both are `None` does it show the error dialog (line 1251). -/
def itosTelemetryOpenCheck (tlmFile combFile : Option Nat) : ItosTlmOpenOutcome :=
  if tlmFile.isSome || combFile.isSome then
    { wroteTlm := true, wroteComb := true, dialogShown := false }
  else
    { wroteTlm := false, wroteComb := false, dialogShown := true }

/-! ## Structure member loops (typesHeader.py, cfs_ros_msg_gen.py, itosRecFile.py) -/

/-- One row of a structure table as read by typesHeader.py and
cfs_ros_msg_gen.py through `ccdd.getStructureTableNameByRow` and
`ccdd.getStructureTableData("variable name" / "data type" / "array size" /
"bit length", row)`.  Both scripts call `.endswith` on the variable name
directly, so it is a plain string; array size and bit length may be `None`. -/
structure TableRow where
  structName : String
  variableName : String
  dataType : String
  arraySize : Option String
  bitLength : Option String
  deriving DecidableEq, Repr

/-- Bit-length suffix of a typesHeader.py member line (lines 102-109). -/
def typesHeaderBitSuffix (r : TableRow) : String :=
  match r.bitLength with
  | some b => if b.isEmpty then "" else ":" ++ b
  | none => ""

/-- Array-size or bit-length suffix of a typesHeader.py member line (lines
95-109): the array size when present and nonempty, otherwise the bit length
when present and nonempty. -/
def typesHeaderSuffix (r : TableRow) : String :=
  match r.arraySize with
  | some a => if a.isEmpty then typesHeaderBitSuffix r else "[" ++ a ++ "]"
  | none => typesHeaderBitSuffix r

/-- One member line written by typesHeader.py (lines 92-111). -/
def typesHeaderMemberLine (r : TableRow) : String :=
  "  " ++ r.dataType ++ " " ++ r.variableName ++ typesHeaderSuffix r ++ ";\n"

/-- Member loop of typesHeader.py for one structure (lines 74-111): for each row
of the matching structure whose variable name does not end with `]` and has not
been processed yet, record the name and write the member line.  Each result
pair holds the row's variable name (the key appended to `usedVariableNames`)
and the text written for it. -/
def typesHeaderMembersAux (structName : String) :
    List TableRow → List String → List (String × String)
  | [], _ => []
  | r :: rest, usedVariableNames =>
    if r.structName = structName then
      if pyEndsWith r.variableName "]" then typesHeaderMembersAux structName rest usedVariableNames
      else if usedVariableNames.contains r.variableName then
        typesHeaderMembersAux structName rest usedVariableNames
      else
        (r.variableName, typesHeaderMemberLine r) ::
          typesHeaderMembersAux structName rest (usedVariableNames ++ [r.variableName])
    else typesHeaderMembersAux structName rest usedVariableNames

/-- Member lines emitted by typesHeader.py for one structure. -/
def typesHeaderMembers (structName : String) (rows : List TableRow) : List (String × String) :=
  typesHeaderMembersAux structName rows []

/-- CCDD primitive type names (cfs_ros_msg_gen.py, lines 5-16). -/
def CCDDPrimitiveTypes : List String :=
  ["int8_t", "uint8_t", "int16_t", "uint16_t", "int32_t", "uint32_t",
   "int64_t", "uint64_t", "float", "double"]

/-- ROS primitive type names (cfs_ros_msg_gen.py, lines 18-33). -/
def ROSPrimitiveTypes : List String :=
  ["int8", "uint8", "int16", "uint16", "int32", "uint32", "int64", "uint64",
   "float32", "float64", "string", "bool", "time", "duration"]

/-- The `CcddToRosTypeConverter` dictionary (cfs_ros_msg_gen.py, lines 35-38),
pairing the first ten CCDD primitive types with the ROS primitive types. -/
def CcddToRosTypeConverter (t : String) : String :=
  (((CCDDPrimitiveTypes.zip ROSPrimitiveTypes).lookup t).getD t)

/-- Python `s.rstrip("[]")`: strip all trailing `[` and `]` characters. -/
def rstripBrackets (s : String) : String :=
  String.mk ((s.data.reverse.dropWhile (fun c => c = '[' || c = ']')).reverse)

/-- `ROSMessageDefinition.AddField` (cfs_ros_msg_gen.py, lines 79-84): raise
`ValueError` unless the stripped field type is a ROS primitive or a known
message type, then assign `fields[fieldName] = fieldType` in the ordered
dictionary (update in place when the key exists, else append). -/
def rosAddField (known : List String) (fields : List (String × String))
    (fieldType fieldName : String) : Except String (List (String × String)) :=
  if ROSPrimitiveTypes.contains (rstripBrackets fieldType) ||
      known.contains (rstripBrackets fieldType) then
    .ok (if fields.any (fun p => p.1 = fieldName) then
      fields.map (fun p => if p.1 = fieldName then (p.1, fieldType) else p)
    else fields ++ [(fieldName, fieldType)])
  else
    .error "'fieldType' must be a ROSPrimitiveType or ROSMessageDefinition.KnownMessageType!"

/-- Field type computed for one row by cfs_ros_msg_gen.py (lines 141-155):
convert a CCDD primitive data type to the ROS name, and append `[]` when the
row has a nonempty array size. -/
def rosFieldType (r : TableRow) : String :=
  let memberType :=
    if CCDDPrimitiveTypes.contains r.dataType then CcddToRosTypeConverter r.dataType
    else r.dataType
  match r.arraySize with
  | some a => if a.isEmpty then memberType else memberType ++ "[]"
  | none => memberType

/-- Structure-conversion loop of cfs_ros_msg_gen.py for one structure (lines
129-155): for each row of the matching structure whose variable name does not
end with `]` and has not been processed yet, convert the data type, append `[]`
for array variables, and add the field to the message definition.  `known` is
`ROSMessageDefinition.KnownMessageTypes` at the time this structure is
processed (it already contains the current structure's name).  An `error`
result models the `ValueError` propagating out of the loop. -/
def rosStructureFieldsAux (structName : String) (known : List String) :
    List TableRow → List String → List (String × String) →
      Except String (List (String × String))
  | [], _, fields => .ok fields
  | r :: rest, usedVariableNames, fields =>
    if r.structName = structName then
      if pyEndsWith r.variableName "]" then
        rosStructureFieldsAux structName known rest usedVariableNames fields
      else if usedVariableNames.contains r.variableName then
        rosStructureFieldsAux structName known rest usedVariableNames fields
      else
        match rosAddField known fields (rosFieldType r) r.variableName with
        | .error e => .error e
        | .ok fields' =>
          rosStructureFieldsAux structName known rest
            (usedVariableNames ++ [r.variableName]) fields'
    else rosStructureFieldsAux structName known rest usedVariableNames fields

/-- Fields collected by cfs_ros_msg_gen.py for one structure, as
`(fieldName, fieldType)` pairs in emission order (`ToString` prints
`fieldType fieldName` per line). -/
def rosStructureFields (structName : String) (known : List String) (rows : List TableRow) :
    Except String (List (String × String)) :=
  rosStructureFieldsAux structName known rows [] []

/-- Lines of the `.msg` file written by `ROSMessageDefinition.ToString`
(cfs_ros_msg_gen.py, lines 89-96). -/
def rosMessageToString (fields : List (String × String)) : String :=
  String.join (fields.map (fun p => p.2 ++ " " ++ p.1 ++ "\n"))

/-- Embedding of `isVariable` (itosRecFile.py, lines 61-62): the row is a
variable (not an array definition) when both values are non-`None` and the
array size is empty or the variable name ends with `]`. -/
def isVariable (variableName arraySize : Option String) : Bool :=
  match variableName, arraySize with
  | some vn, some arrSize => arrSize.isEmpty || pyEndsWith vn "]"
  | _, _ => false

/-- Condition of the string-member special case in `outputStructureDefinition`
(itosRecFile.py, line 239): `arraySize is not None and arraySize != "" and
dataType == "string"`. -/
def itosIsStringMember (r : ItosRow) : Bool :=
  match r.arraySize with
  | some a => !a.isEmpty && r.dataType == "string"
  | none => false

/-- Suffix of `variablePath` after its last comma (itosRecFile.py, lines
260-262: `varIndex = variablePath.rfind(",") + 1; variablePath[varIndex:]`;
when no comma occurs `rfind` yields `-1` and the whole path is kept). -/
def afterLastComma (s : String) : String :=
  String.mk ((s.data.reverse.takeWhile (fun c => c ≠ ',')).reverse)

/-- Value of `ccdd.getFullVariableName(rowIndex, ",")` for a table row index:
the host-computed comma-separated path of that row.  Note that the source
passes the loop position `rowIndex`, not the reordered row `row`. -/
def itosFullPathAtIndex (rows : List ItosRow) (rowIndex : Nat) : String :=
  ((rows.get? rowIndex).map ItosRow.fullPathComma).getD ""

/-- State threaded through the `outputStructureDefinition` loop: the `termLine`
flag, the `usedVariableNames` list, the text written to the output file so far,
and, as an observation for the member lines, the `(variable name, array size)`
of every row that produced a member line, in emission order. -/
structure ItosEmitState where
  termLine : Bool
  usedVariableNames : List (Option String)
  text : String
  emitted : List (Option String × Option String)
  deriving DecidableEq, Repr

/-- Initial state of the `outputStructureDefinition` loop (itosRecFile.py,
lines 195-196). -/
def itosInitState : ItosEmitState :=
  { termLine := false, usedVariableNames := [], text := "", emitted := [] }

/-- One iteration of the `outputStructureDefinition` loop (itosRecFile.py,
lines 199-304) for loop position `rowIndex` and reordered row `row`.  Rows of
other structures are skipped; a variable name already in `usedVariableNames` is
skipped; otherwise the name is recorded and, when `isVariable` holds, the
member is written.  A string member whose name ends in `_0` reaches
`variableName.substring(...)` (line 243), which raises `AttributeError` in
Python (`str` has no `substring` method); any other string member is skipped
(`skipStringMembers`).  A `None` result of
`ccdd.getITOSEncodedDataType(dataType, "TWO_CHAR")` reaches the concatenation
`"  " + itosEncode2Char + ...` (line 304) and raises `TypeError`.  Both
uncaught exceptions are modelled as `error` results. -/
def itosStructDefStep (structureName : String) (isPacket : Bool) (rows : List ItosRow)
    (rowIndex row : Nat) (st : ItosEmitState) : Except String ItosEmitState :=
  match rows.get? row with
  | none => .ok st
  | some r =>
    if r.structName = structureName then
      if st.usedVariableNames.contains r.variableName then .ok st
      else
        let used := st.usedVariableNames ++ [r.variableName]
        if isVariable r.variableName r.arraySize then
          if itosIsStringMember r then
            if (match r.variableName with
                | some vn => pyEndsWith vn "_0"
                | none => false) then
              .error "AttributeError: 'str' object has no attribute 'substring'"
            else
              .ok { st with usedVariableNames := used }
          else
            match r.itosEncode2Char with
            | none => .error "TypeError: can only concatenate str (not NoneType) to str"
            | some itosEncode2Char =>
              let variableName := afterLastComma (itosFullPathAtIndex rows rowIndex)
              let pre := if st.termLine then (if isPacket then ",\n" else "\n") else ""
              let otherParameters :=
                match r.bitLength with
                | some b => if b.isEmpty then "" else "lengthInBits=" ++ b
                | none => ""
              let otherParameters :=
                if otherParameters.isEmpty then otherParameters else otherParameters ++ " "
              let otherParameters :=
                if itosEncode2Char ≠ r.dataType then
                  otherParameters ++ "generateMnemonic=\"no\""
                else otherParameters
              .ok { termLine := true, usedVariableNames := used,
                    text := st.text ++ pre ++ "  " ++ itosEncode2Char ++ " " ++
                      variableName ++ " \x7b" ++ otherParameters ++ "\x7d",
                    emitted := st.emitted ++ [(r.variableName, r.arraySize)] }
        else .ok { st with usedVariableNames := used }
    else .ok st

/-- Driver of the `outputStructureDefinition` loop: `for rowIndex in
range(numStructRows): row = newRowOrder[rowIndex]; ...`, with
`remaining` counting the loop iterations still to run. -/
def itosStructDefAux (structureName : String) (isPacket : Bool) (rows : List ItosRow)
    (rowOrder : List Nat) : Nat → Nat → ItosEmitState → Except String ItosEmitState
  | 0, _, st => .ok st
  | remaining + 1, rowIndex, st =>
    match itosStructDefStep structureName isPacket rows rowIndex (rowOrder.getD rowIndex 0) st with
    | .error e => .error e
    | .ok st' => itosStructDefAux structureName isPacket rows rowOrder remaining (rowIndex + 1) st'

/-- Embedding of `outputStructureDefinition` (itosRecFile.py, lines 194-304).
`rowOrder` is the `newRowOrder` array computed in the script main; by
`reorder_identity` the main always passes the identity permutation
`List.range rows.length`. -/
def outputStructureDefinition (structureName : String) (isPacket : Bool)
    (rows : List ItosRow) (rowOrder : List Nat) : Except String ItosEmitState :=
  itosStructDefAux structureName isPacket rows rowOrder rows.length 0 itosInitState

/-! ## Concrete inputs used by the counterexamples and witnesses -/

/-- A structure table consisting of an array definition row (`arr`) and an
array member row (`arr[0]`) of one structure. -/
def itosArrayRows : List ItosRow :=
  [{ structName := "S", variableName := some "arr", dataType := "uint8",
     arraySize := some "2", bitLength := some "", offset := 0,
     fullPathComma := "arr", itosEncode2Char := some "U1" },
   { structName := "S", variableName := some "arr[0]", dataType := "uint8",
     arraySize := some "2", bitLength := some "", offset := 1,
     fullPathComma := "arr[0]", itosEncode2Char := some "U1" }]

/-- Result of `outputStructureDefinition` on `itosArrayRows`: the array
definition row is skipped (`isVariable` is false for it) and the array member
row `arr[0]` is written. -/
def itosArrayResult : ItosEmitState :=
  { termLine := true, usedVariableNames := [some "arr", some "arr[0]"],
    text := "  U1 arr[0] \x7bgenerateMnemonic=\"no\"\x7d",
    emitted := [(some "arr[0]", some "2")] }

/-- Host environment of an ES start-up script run. -/
def esEnvA : CreationInfoEnv :=
  { dateAndTime := "2026-01-01 10:00:00", user := "jdoe", project := "Proj",
    scriptName := "cFEESStartup.py", tableNumRows := 1,
    tableNames := ["ES Start-up Script"], associatedGroupNames := [] }

/-- The same host environment at a later run: identical table data, different
`ccdd.getDateAndTime()` value. -/
def esEnvB : CreationInfoEnv :=
  { esEnvA with dateAndTime := "2026-01-02 10:00:00" }

/-- One ES start-up table entry (the seven columns read by the script). -/
def esEntryW : List String :=
  ["CFE_APP", "/cf/apps/x.so", "X_Main", "X", "50", "8192", "RESTART"]

/-- One copy-table entry (the seven columns returned by
`ccdd.getCopyTableEntries`). -/
def hkEntryW : List String :=
  ["TLM_MID", "0", "HK_OUT_MID", "12", "4", "ParentTable", "variableName"]

/-- One schedule definition table entry (the six columns returned by
`ccdd.getApplicationScheduleDefinitionTable`). -/
def sdtEntryW : List String :=
  ["SCH_ENABLED", "SCH_ACTIVITY_SEND_MSG", "1", "0", "12", "SCH_GROUP_NONE"]

/-- A one-row structure table for the typesHeader and ROS member loops. -/
def typesRowsW : List TableRow :=
  [{ structName := "S", variableName := "x", dataType := "uint8_t",
     arraySize := some "", bitLength := some "" }]

/-- Fields collected by the ROS loop on `typesRowsW`. -/
def rosFieldsW : List (String × String) := [("x", "uint8")]

/-- Everything `makeESStartupFile` writes after the `ccdd.getDateAndTime()`
value embedded in the creation header; this text does not depend on
`dateAndTime`. -/
def esRestText (env : CreationInfoEnv) (startupEntries : List (List String)) : String :=
  "\n   User    : " ++ env.user ++ "\n   Project : " ++ env.project ++
    "\n   Script  : " ++ env.scriptName ++ "\n" ++
    (if env.tableNumRows ≠ 0 then
      writeLn ("   Table(s): " ++ joinSep ",\n             " (sortStrings env.tableNames))
    else "") ++
    (if env.associatedGroupNames.length ≠ 0 then
      writeLn ("   Group(s): " ++ joinSep ",\n             " (sortStrings env.associatedGroupNames))
    else "") ++
    writeLn "*/\n" ++
    esStartupHeaderLine (esColumnWidths startupEntries)
      ["Module", "Path &", "Entry", "cFE", "Priority", "Stack", "Unused", "Exception"] ++
    esStartupHeaderLine (esColumnWidths startupEntries)
      ["Type", "File", "Point", "Name", "", "Size", "", "Action"] ++
    String.join (startupEntries.map (esStartupBodyLine (esColumnWidths startupEntries)))

/-! ### The reordering pass is the identity

The comparison loop of `reorderRowsForByteOrder` runs over
`range(row + 1, numStructRows - 1)` with the stale value `row = numStructRows - 1`,
an empty range, so `packCount` never exceeds `1` and the pass never moves an
element. -/

theorem pyRange_succ_self (m : Nat) : pyRange (m + 1) m = [] := by
  unfold pyRange
  rw [if_neg (by omega)]

theorem reorderLEStep_eq (rows : List ItosRow) (acc : List Nat) (tgtRow : Nat) :
    reorderLEStep rows acc tgtRow = acc := by
  simp [reorderLEStep, pyRange_succ_self, packedRun]

theorem foldl_congr_const {α β : Type} (f : β → α → β) (h : ∀ b a, f b a = b) :
    ∀ (l : List α) (init : β), l.foldl f init = init
  | [], _ => rfl
  | x :: xs, init => by rw [List.foldl_cons, h]; exact foldl_congr_const f h xs init

theorem reorder_identity (endian : String) (rows : List ItosRow) :
    reorderRowsForByteOrder endian rows = List.range rows.length := by
  unfold reorderRowsForByteOrder
  by_cases h : endian = "LE"
  · rw [if_pos h]
    exact foldl_congr_const _ (reorderLEStep_eq rows) _ _
  · rw [if_neg h]

/-! ### Width lemmas for the fixed-width renderers -/

theorem charRun_length (c : Char) (n : Nat) : (charRun c n).length = n := by
  simp [charRun, String.length]

theorem padLeftJust_length {w : Nat} {s : String} (h : s.length ≤ w) :
    (padLeftJust w s).length = w := by
  simp [padLeftJust, String.length_append, charRun_length]
  omega

theorem padRightJust_length {w : Nat} {s : String} (h : s.length ≤ w) :
    (padRightJust w s).length = w := by
  simp [padRightJust, String.length_append, charRun_length]
  omega

theorem le_columnLongest_foldl (i : Nat) :
    ∀ (entries : List (List String)) (acc : Nat),
      acc ≤ entries.foldl (fun m e => max m ((e.getD i "").length)) acc
  | [], _ => le_refl _
  | e :: rest, acc =>
    le_trans (le_max_left acc _) (le_columnLongest_foldl i rest (max acc ((e.getD i "").length)))

theorem columnLongest_le_of_mem {entries : List (List String)} {e : List String} {i : Nat}
    (h : e ∈ entries) : (e.getD i "").length ≤ columnLongest entries i := by
  unfold columnLongest
  generalize hacc : (0 : Nat) = acc
  clear hacc
  induction entries generalizing acc with
  | nil => cases h
  | cons hd tl ih =>
    rw [List.foldl_cons]
    rcases List.mem_cons.mp h with he | he
    · subst he
      exact le_trans (le_max_right acc _) (le_columnLongest_foldl i tl _)
    · exact ih he _

theorem getLongestStrings_length (entries : List (List String)) (minWidths : List Nat) :
    (getLongestStrings entries minWidths).length = minWidths.length := by
  simp [getLongestStrings]

theorem getLongestStrings_getD {entries : List (List String)} {minWidths : List Nat} {i : Nat}
    (h : i < minWidths.length) :
    (getLongestStrings entries minWidths).getD i 0 =
      max (minWidths.getD i 0) (columnLongest entries i) := by
  unfold getLongestStrings
  rw [List.getD_eq_getElem?_getD, List.getElem?_map, List.getElem?_range h]
  rfl

theorem le_getLongestStrings {entries : List (List String)} {minWidths : List Nat} {i : Nat}
    (h : i < minWidths.length) :
    minWidths.getD i 0 ≤ (getLongestStrings entries minWidths).getD i 0 := by
  rw [getLongestStrings_getD h]
  exact le_max_left _ _

theorem entry_le_getLongestStrings {entries : List (List String)} {e : List String}
    {minWidths : List Nat} {i : Nat} (he : e ∈ entries) (h : i < minWidths.length) :
    (e.getD i "").length ≤ (getLongestStrings entries minWidths).getD i 0 := by
  rw [getLongestStrings_getD h]
  exact le_trans (columnLongest_le_of_mem he) (le_max_right _ _)

theorem hkAccumStep_length (w : List Nat) (copyTableEntries : List (List String)) :
    ((if copyTableEntries.length > 0 then getLongestStrings copyTableEntries w else w)).length
      = w.length := by
  by_cases h : copyTableEntries.length > 0 <;>
    simp [h, getLongestStrings_length]

theorem hkFoldWidths_length :
    ∀ (streams : List (List (List String))) (w : List Nat),
      (streams.foldl
        (fun w copyTableEntries =>
          if copyTableEntries.length > 0 then getLongestStrings copyTableEntries w else w)
        w).length = w.length
  | [], _ => rfl
  | s :: rest, w => by
    rw [List.foldl_cons, hkFoldWidths_length rest, hkAccumStep_length]

theorem hkFoldWidths_ge :
    ∀ (streams : List (List (List String))) (w : List Nat) (i : Nat), i < w.length →
      w.getD i 0 ≤
        (streams.foldl
          (fun w copyTableEntries =>
            if copyTableEntries.length > 0 then getLongestStrings copyTableEntries w else w)
          w).getD i 0
  | [], _, _, _ => le_refl _
  | s :: rest, w, i, h => by
    rw [List.foldl_cons]
    refine le_trans ?_ (hkFoldWidths_ge rest _ i ?_)
    · by_cases hs : s.length > 0
      · simpa [hs] using @le_getLongestStrings s _ _ h
      · simp [hs]
    · rw [hkAccumStep_length]
      exact h

theorem hkFoldWidths_entry_le :
    ∀ (streams : List (List (List String))) (w : List Nat) (es : List (List String))
      (e : List String) (i : Nat), es ∈ streams → e ∈ es → i < w.length →
      (e.getD i "").length ≤
        (streams.foldl
          (fun w copyTableEntries =>
            if copyTableEntries.length > 0 then getLongestStrings copyTableEntries w else w)
          w).getD i 0
  | [], _, _, _, _, hes, _, _ => absurd hes (List.not_mem_nil _)
  | s :: rest, w, es, e, i, hes, he, h => by
    rw [List.foldl_cons]
    rcases List.mem_cons.mp hes with h1 | h1
    · subst h1
      have hs : es.length > 0 := List.length_pos.mpr (List.ne_nil_of_mem he)
      refine le_trans ?_ (hkFoldWidths_ge rest _ i (by rw [hkAccumStep_length]; exact h))
      simpa [hs] using entry_le_getLongestStrings he h
    · exact hkFoldWidths_entry_le rest _ es e i h1 he (by rw [hkAccumStep_length]; exact h)

theorem hkAdjustWidth_length (w : List Nat) (j : Nat) :
    (hkAdjustWidth w j).length = w.length := by
  unfold hkAdjustWidth
  split <;> simp

theorem le_hkAdjustWidth (w : List Nat) (j i : Nat) :
    w.getD i 0 ≤ (hkAdjustWidth w j).getD i 0 := by
  unfold hkAdjustWidth
  split
  · rename_i h
    simp only [List.getD_eq_getElem?_getD] at h ⊢
    by_cases hij : i = j
    · subst hij
      by_cases hlen : i < w.length
      · rw [List.getElem?_set_self hlen, Option.getD_some]
        omega
      · have h1 : w[i]? = none := List.getElem?_eq_none (by omega)
        have h2 : (w.set i "HK_UNDEFINED_ENTRY".length)[i]? = none :=
          List.getElem?_eq_none (by rw [List.length_set]; omega)
        rw [h1, h2]
    · rw [List.getElem?_set_ne (fun hne => hij hne.symm)]
  · exact le_refl _

theorem hkFinalWidths_length (allTableEntries : List (List (List String))) :
    (hkFinalWidths allTableEntries).length = 7 := by
  unfold hkFinalWidths
  by_cases h : hkTotalEntries allTableEntries < HK_COPY_TABLE_ENTRIES <;>
    simp [h, hkAdjustWidth_length, hkAccumWidths, hkFoldWidths_length, hkDefaultColumnWidth]

theorem hkFinalWidths_entry_le {allTableEntries : List (List (List String))}
    {es : List (List String)} {e : List String} {i : Nat}
    (hes : es ∈ allTableEntries) (he : e ∈ es) (hi : i < 7) :
    (e.getD i "").length ≤ (hkFinalWidths allTableEntries).getD i 0 := by
  have hbase : (e.getD i "").length ≤ (hkAccumWidths allTableEntries).getD i 0 :=
    hkFoldWidths_entry_le allTableEntries hkDefaultColumnWidth es e i hes he
      (by simp [hkDefaultColumnWidth]; omega)
  unfold hkFinalWidths
  by_cases h : hkTotalEntries allTableEntries < HK_COPY_TABLE_ENTRIES
  · rw [if_pos h]
    exact le_trans hbase
      (le_trans (le_hkAdjustWidth _ 0 i) (le_hkAdjustWidth _ 2 i))
  · rw [if_neg h]
    exact hbase

theorem hkFinalWidths_ge_default {allTableEntries : List (List (List String))} {i : Nat}
    (hi : i < 7) :
    hkDefaultColumnWidth.getD i 0 ≤ (hkFinalWidths allTableEntries).getD i 0 := by
  have hbase : hkDefaultColumnWidth.getD i 0 ≤ (hkAccumWidths allTableEntries).getD i 0 :=
    hkFoldWidths_ge allTableEntries hkDefaultColumnWidth i
      (by simp [hkDefaultColumnWidth]; omega)
  unfold hkFinalWidths
  by_cases h : hkTotalEntries allTableEntries < HK_COPY_TABLE_ENTRIES
  · rw [if_pos h]
    exact le_trans hbase
      (le_trans (le_hkAdjustWidth _ 0 i) (le_hkAdjustWidth _ 2 i))
  · rw [if_neg h]
    exact hbase

/-! ### Cancellation lemmas for header strings -/

theorem string_append_cancel {p a b s : String} (h : p ++ (a ++ s) = p ++ (b ++ s)) :
    a = b := by
  have hd : p.data ++ (a.data ++ s.data) = p.data ++ (b.data ++ s.data) := by
    have := congrArg String.data h
    simpa [String.data_append] using this
  exact String.ext (List.append_cancel_right (List.append_cancel_left hd))

/-! ### Length bound for the hexadecimal rendering -/

theorem natToHexAux_length :
    ∀ (fuel n k : Nat), 0 < k → n < 16 ^ k → n < fuel →
      (natToHexAux fuel n).length ≤ k
  | 0, _, _, _, _, hfuel => absurd hfuel (Nat.not_lt_zero _)
  | fuel + 1, n, k, hk, hpow, hfuel => by
    unfold natToHexAux
    by_cases h16 : n < 16
    · rw [if_pos h16]
      simpa using hk
    · rw [if_neg h16]
      have hk2 : 2 ≤ k := by
        by_contra hlt
        have hk1 : k = 1 := by omega
        subst hk1
        simp at hpow
        omega
      have hdivpow : n / 16 < 16 ^ (k - 1) := by
        rw [Nat.div_lt_iff_lt_mul (by omega)]
        calc n < 16 ^ k := hpow
          _ = 16 ^ (k - 1) * 16 := by
            rw [← Nat.pow_succ]
            congr 1
            omega
      have hdivfuel : n / 16 < fuel := by
        have := Nat.div_lt_self (by omega : 0 < n) (by omega : 1 < 16)
        omega
      have ih := natToHexAux_length fuel (n / 16) (k - 1) (by omega) hdivpow hdivfuel
      rw [List.length_append]
      simp only [List.length_singleton]
      omega

theorem natToHex_length_le {n k : Nat} (hk : 0 < k) (h : n < 16 ^ k) :
    (natToHex n).length ≤ k := by
  unfold natToHex
  exact natToHexAux_length (n + 1) n k hk h (Nat.lt_succ_self n)

theorem zeroPadHex_length {w n k : Nat} (hk : 0 < k) (hkw : k ≤ w) (h : n < 16 ^ k) :
    (zeroPadHex w n).length = w := by
  have hle : (natToHex n).length ≤ w := le_trans (natToHex_length_le hk h) hkw
  simp [zeroPadHex, String.length_append, charRun_length]
  omega

/-! ### Deduplication invariants of the member loops -/

theorem typesHeaderMembersAux_inv (structName : String) :
    ∀ (rows : List TableRow) (used : List String),
      (∀ p ∈ typesHeaderMembersAux structName rows used,
        p.1 ∉ used ∧ pyEndsWith p.1 "]" = false) ∧
      ((typesHeaderMembersAux structName rows used).map Prod.fst).Nodup
  | [], _ => by simp [typesHeaderMembersAux]
  | r :: rest, used => by
    unfold typesHeaderMembersAux
    by_cases hs : r.structName = structName
    · rw [if_pos hs]
      by_cases hend : pyEndsWith r.variableName "]"
      · rw [if_pos hend]
        exact typesHeaderMembersAux_inv structName rest used
      · rw [if_neg hend]
        by_cases hmem : used.contains r.variableName
        · rw [if_pos hmem]
          exact typesHeaderMembersAux_inv structName rest used
        · rw [if_neg hmem]
          have ih := typesHeaderMembersAux_inv structName rest (used ++ [r.variableName])
          constructor
          · intro p hp
            rcases List.mem_cons.mp hp with hp | hp
            · subst hp
              refine ⟨?_, by simpa using hend⟩
              intro hin
              exact hmem (by simpa using hin)
            · have := (ih.1 p hp).1
              exact ⟨fun hin => this (List.mem_append_left _ hin), (ih.1 p hp).2⟩
          · rw [List.map_cons, List.nodup_cons]
            refine ⟨?_, ih.2⟩
            intro hin
            rcases List.mem_map.mp hin with ⟨p, hp, hfst⟩
            have := (ih.1 p hp).1
            exact this (List.mem_append_right _ (by simp [hfst]))
    · rw [if_neg hs]
      exact typesHeaderMembersAux_inv structName rest used

theorem rosStructureFieldsAux_inv (structName : String) (known : List String) :
    ∀ (rows : List TableRow) (used : List String) (fields fields' : List (String × String)),
      rosStructureFieldsAux structName known rows used fields = .ok fields' →
      (∀ q ∈ fields, q.1 ∈ used) →
      (fields.map Prod.fst).Nodup →
      (∀ q ∈ fields, pyEndsWith q.1 "]" = false) →
      (fields'.map Prod.fst).Nodup ∧ (∀ q ∈ fields', pyEndsWith q.1 "]" = false)
  | [], used, fields, fields', h, _, hnodup, hend => by
    unfold rosStructureFieldsAux at h
    cases h
    exact ⟨hnodup, hend⟩
  | r :: rest, used, fields, fields', h, hsub, hnodup, hend => by
    unfold rosStructureFieldsAux at h
    by_cases hs : r.structName = structName
    · rw [if_pos hs] at h
      by_cases hendr : pyEndsWith r.variableName "]"
      · rw [if_pos hendr] at h
        exact rosStructureFieldsAux_inv structName known rest used fields fields' h hsub hnodup hend
      · rw [if_neg hendr] at h
        by_cases hmem : used.contains r.variableName
        · rw [if_pos hmem] at h
          exact rosStructureFieldsAux_inv structName known rest used fields fields' h hsub hnodup hend
        · rw [if_neg hmem] at h
          cases hAdd : rosAddField known fields (rosFieldType r) r.variableName with
          | error e => rw [hAdd] at h; cases h
          | ok fields2 =>
            rw [hAdd] at h
            have hany : fields.any (fun p => p.1 = r.variableName) = false := by
              rw [List.any_eq_false]
              intro p hp
              simp only [decide_eq_true_eq]
              intro heq
              exact hmem (by simpa using heq ▸ hsub p hp)
            have hfields2 : fields2 = fields ++ [(r.variableName, rosFieldType r)] := by
              unfold rosAddField at hAdd
              split at hAdd
              · rw [hany] at hAdd
                simpa using hAdd.symm
              · cases hAdd
            subst hfields2
            refine rosStructureFieldsAux_inv structName known rest
              (used ++ [r.variableName]) _ fields' h ?_ ?_ ?_
            · intro q hq
              rcases List.mem_append.mp hq with hq | hq
              · exact List.mem_append_left _ (hsub q hq)
              · simp at hq
                subst hq
                exact List.mem_append_right _ (by simp)
            · rw [List.map_append, List.nodup_append]
              refine ⟨hnodup, by simp, ?_⟩
              intro a ha hb
              simp at hb
              rcases List.mem_map.mp ha with ⟨q, hq, hfst⟩
              exact hmem (by simpa using (hfst.trans hb) ▸ hsub q hq)
            · intro q hq
              rcases List.mem_append.mp hq with hq | hq
              · exact hend q hq
              · simp at hq
                subst hq
                simpa using hendr
    · rw [if_neg hs] at h
      exact rosStructureFieldsAux_inv structName known rest used fields fields' h hsub hnodup hend

/-- Loop invariant of `outputStructureDefinition`: every emitted row's variable
name has been recorded in `usedVariableNames`, the emitted variable names are
pairwise distinct, and every emitted row passed the `isVariable` filter. -/
def ItosEmitInv (st : ItosEmitState) : Prop :=
  (∀ p ∈ st.emitted, p.1 ∈ st.usedVariableNames) ∧
  (st.emitted.map Prod.fst).Nodup ∧
  (∀ p ∈ st.emitted, isVariable p.1 p.2 = true)

theorem itosStructDefStep_inv {structureName : String} {isPacket : Bool} {rows : List ItosRow}
    {rowIndex row : Nat} {st st' : ItosEmitState}
    (h : itosStructDefStep structureName isPacket rows rowIndex row st = .ok st')
    (hinv : ItosEmitInv st) : ItosEmitInv st' := by
  obtain ⟨hsub, hnodup, hvar⟩ := hinv
  simp only [itosStructDefStep] at h
  split at h
  · cases h
    exact ⟨hsub, hnodup, hvar⟩
  · rename_i r hr
    split at h
    · rename_i hs
      split at h
      · cases h
        exact ⟨hsub, hnodup, hvar⟩
      · rename_i hmem
        split at h
        · rename_i hvarb
          split at h
          · split at h
            · cases h
            · cases h
              exact ⟨fun p hp => List.mem_append_left _ (hsub p hp), hnodup, hvar⟩
          · split at h
            · cases h
            · rename_i enc henc
              cases h
              refine ⟨?_, ?_, ?_⟩
              · intro p hp
                rcases List.mem_append.mp hp with hp | hp
                · exact List.mem_append_left _ (hsub p hp)
                · simp at hp
                  subst hp
                  exact List.mem_append_right _ (by simp)
              · simp only [List.map_append]
                rw [List.nodup_append]
                refine ⟨hnodup, by simp, ?_⟩
                intro a ha hb
                simp at hb
                rcases List.mem_map.mp ha with ⟨p, hp, hfst⟩
                have : r.variableName ∈ st.usedVariableNames := (hfst.trans hb) ▸ hsub p hp
                exact hmem (by simpa using this)
              · intro p hp
                rcases List.mem_append.mp hp with hp | hp
                · exact hvar p hp
                · simp at hp
                  subst hp
                  exact hvarb
        · rename_i hvarb
          cases h
          exact ⟨fun p hp => List.mem_append_left _ (hsub p hp), hnodup, hvar⟩
    · cases h
      exact ⟨hsub, hnodup, hvar⟩

theorem itosStructDefAux_inv (structureName : String) (isPacket : Bool) (rows : List ItosRow)
    (rowOrder : List Nat) :
    ∀ (remaining rowIndex : Nat) (st st' : ItosEmitState),
      itosStructDefAux structureName isPacket rows rowOrder remaining rowIndex st = .ok st' →
      ItosEmitInv st → ItosEmitInv st'
  | 0, _, st, st', h, hinv => by
    unfold itosStructDefAux at h
    cases h
    exact hinv
  | remaining + 1, rowIndex, st, st', h, hinv => by
    unfold itosStructDefAux at h
    cases hstep : itosStructDefStep structureName isPacket rows rowIndex
        (rowOrder.getD rowIndex 0) st with
    | error e => rw [hstep] at h; cases h
    | ok st2 =>
      rw [hstep] at h
      exact itosStructDefAux_inv structureName isPacket rows rowOrder remaining (rowIndex + 1)
        st2 st' h (itosStructDefStep_inv hstep hinv)

theorem outputStructureDefinition_inv {structureName : String} {isPacket : Bool}
    {rows : List ItosRow} {rowOrder : List Nat} {st' : ItosEmitState}
    (h : outputStructureDefinition structureName isPacket rows rowOrder = .ok st') :
    ItosEmitInv st' := by
  refine itosStructDefAux_inv structureName isPacket rows rowOrder rows.length 0
    itosInitState st' h ?_
  refine ⟨?_, ?_, ?_⟩ <;> simp [itosInitState]

/-! ### Decomposition of the ES start-up file text around the timestamp -/

theorem makeESStartupFileText_decompose (env : CreationInfoEnv)
    (startupEntries : List (List String)) :
    makeESStartupFileText env startupEntries =
      "/* Created : " ++ (env.dateAndTime ++ esRestText env startupEntries) := by
  simp [makeESStartupFileText, outputFileCreationInfo, writeLn, esRestText, String.append_assoc]

/-! ## Claim theorems -/

/-- Claim C1, counterexample: for input `"0x1831"` the telemetry output of
`extractMessageID` is `"0x0031"`, which is neither the claim's example value
`"0x031"` nor the value obtained by masking to the low 12 bits and zero-padding
to 4 hex digits (that would be `"0x0831"`). -/
theorem extract_low12_claim_cex :
    extractMessageID "0x1831" = some "0x0031" ∧
    ("0x0031" : String) ≠ "0x" ++ zeroPadHex 4 ((0x1831 : Int) % (0x1000 : Int)).toNat ∧
    ("0x0031" : String) ≠ "0x031" := by
  decide

/-- Claim C1, amended: for every message-ID string accepted by the hexadecimal
regular expression and fully parsed by `int(msgID, 16)`, `extractMessageID`
returns the value masked to its low 11 bits (`& 0x7ff`), zero-padded to 4 hex
digits and prefixed with `0x` (6 characters in all), and `extractCommandID`
returns the same masked value zero-padded to 3 hex digits (5 characters in
all). -/
theorem extract_ids_mask_low11 :
    ∀ (s : String) (v : Int), reMatchHex s = true → pyIntHex s = some v →
      extractMessageID s = some ("0x" ++ zeroPadHex 4 (v % (0x800 : Int)).toNat) ∧
      extractCommandID s = some ("0x" ++ zeroPadHex 3 (v % (0x800 : Int)).toNat) ∧
      ("0x" ++ zeroPadHex 4 (v % (0x800 : Int)).toNat).length = 6 ∧
      ("0x" ++ zeroPadHex 3 (v % (0x800 : Int)).toNat).length = 5 := by
  intro s v hm hp
  have h0 : (0 : Int) ≤ v % (0x800 : Int) := Int.emod_nonneg v (by norm_num)
  have h1 : v % (0x800 : Int) < 0x800 := Int.emod_lt_of_pos v (by norm_num)
  have hpow : (16 : Nat) ^ 3 = 4096 := by norm_num
  have h2 : (v % (0x800 : Int)).toNat < 16 ^ 3 := by omega
  have hlen4 := zeroPadHex_length (w := 4) (n := (v % (0x800 : Int)).toNat)
    (by norm_num) (by norm_num) h2
  have hlen3 := zeroPadHex_length (w := 3) (n := (v % (0x800 : Int)).toNat)
    (by norm_num) (by norm_num) h2
  refine ⟨?_, ?_, ?_, ?_⟩
  · simp [extractMessageID, hm, hp]
  · simp [extractCommandID, hm, hp]
  · rw [String.length_append, hlen4]
    decide
  · rw [String.length_append, hlen3]
    decide

/-- Claim C1, witness: the amended theorem applied at input `"0x1831"`
(which parses to `6193`). -/
theorem extract_ids_mask_low11_witness :
    extractMessageID "0x1831" = some "0x0031" ∧ extractCommandID "0x1831" = some "0x031" := by
  have h := extract_ids_mask_low11 "0x1831" 6193 (by decide) (by decide)
  exact ⟨h.1.trans (by decide), h.2.1.trans (by decide)⟩

/-- Claim C2: on a little-endian run over two consecutive rows of the same
structure sharing one byte offset (a bit-packed pair), `reorderRowsForByteOrder`
returns `[0, 1]` unchanged instead of reversing the run to `[1, 0]`: the
comparison loop reads the stale initialization-loop variable, so the reversal
code never executes. -/
theorem reorder_no_reversal_on_packed_pair :
    structureTableNameByRow packedPairRows 0 = structureTableNameByRow packedPairRows 1 ∧
    variableOffset packedPairRows 0 = variableOffset packedPairRows 1 ∧
    reorderRowsForByteOrder "LE" packedPairRows = [0, 1] := by
  decide

/-- Claim C3: for every endianness argument and every structure table,
`reorderRowsForByteOrder` returns the identity permutation
`[0, 1, ..., numStructRows - 1]`, and the bit-pack counter of every target row
is exactly `1`, because the comparison loop `range(row + 1, numStructRows - 1)`
is evaluated with the stale value `row = numStructRows - 1` and is therefore
empty. -/
theorem reorderRowsForByteOrder_identity :
    ∀ (endian : String) (rows : List ItosRow),
      reorderRowsForByteOrder endian rows = List.range rows.length ∧
      ∀ tgtRow : Nat,
        1 + packedRun rows (structureTableNameByRow rows tgtRow) (variableOffset rows tgtRow)
            (pyRange (rows.length - 1 + 1) (rows.length - 1)) = 1 := by
  intro endian rows
  refine ⟨reorder_identity endian rows, fun tgtRow => ?_⟩
  rw [pyRange_succ_self]
  rfl

/-- Claim C3, witness: the identity result on the concrete bit-packed pair. -/
theorem reorderRowsForByteOrder_identity_witness :
    reorderRowsForByteOrder "LE" packedPairRows = List.range packedPairRows.length :=
  (reorderRowsForByteOrder_identity "LE" packedPairRows).1

/-- Claim C4, counterexample: two runs of the ES start-up generator over
byte-identical input data (same table rows, same table names and groups) but
different `ccdd.getDateAndTime()` values produce different output bytes — the
creation header embeds the run's timestamp. -/
theorem es_rerun_not_byte_identical_cex :
    esEnvA.tableNumRows = esEnvB.tableNumRows ∧
    esEnvA.tableNames = esEnvB.tableNames ∧
    esEnvA.associatedGroupNames = esEnvB.associatedGroupNames ∧
    esEnvA.user = esEnvB.user ∧
    esEnvA.dateAndTime ≠ esEnvB.dateAndTime ∧
    makeESStartupFileText esEnvA [esEntryW] ≠ makeESStartupFileText esEnvB [esEntryW] := by
  decide

/-- Claim C4, amended: with the input data and the other header values (user,
project, script name, tables, groups) fixed, two runs of the generator produce
byte-identical output if and only if the creation date/time obtained from the
host is also identical; the output is a deterministic function of input data
plus these header values. -/
theorem es_output_determined_by_header :
    ∀ (env env' : CreationInfoEnv) (startupEntries : List (List String)),
      env.user = env'.user → env.project = env'.project →
      env.scriptName = env'.scriptName → env.tableNumRows = env'.tableNumRows →
      env.tableNames = env'.tableNames →
      env.associatedGroupNames = env'.associatedGroupNames →
      (makeESStartupFileText env startupEntries = makeESStartupFileText env' startupEntries ↔
        env.dateAndTime = env'.dateAndTime) := by
  intro env env' startupEntries hu hp hs ht htn hg
  constructor
  · intro h
    rw [makeESStartupFileText_decompose, makeESStartupFileText_decompose] at h
    have hrest : esRestText env startupEntries = esRestText env' startupEntries := by
      unfold esRestText
      rw [hu, hp, hs, ht, htn, hg]
    rw [hrest] at h
    exact string_append_cancel h
  · intro h
    have : env = env' := by
      cases env
      cases env'
      simp_all
    rw [this]

/-- Claim C4, witness: the amended theorem applied to the two concrete
environments that differ only in the date/time. -/
theorem es_output_determined_by_header_witness :
    makeESStartupFileText esEnvA [esEntryW] = makeESStartupFileText esEnvB [esEntryW] ↔
      esEnvA.dateAndTime = esEnvB.dateAndTime :=
  es_output_determined_by_header esEnvA esEnvB [esEntryW] rfl rfl rfl rfl rfl rfl

/-- Claim C5, counterexample: the copy-table renderer does not use field widths
equal to the maximum of the default minimum width and the longest observed
value.  With a single one-entry data stream (input message ID `"TLM_MID"`,
7 characters) the observed maximum for column 0 is
`max 10 7 = 10`, but since unused rows remain (`1 < 1800`) the script enlarges
the column to `"HK_UNDEFINED_ENTRY".length = 18`, and the emitted field is 18
characters wide. -/
theorem hk_width_exceeds_observed_cex :
    (hkField (hkFinalWidths [[hkEntryW]]) hkEntryW 0).length = 18 ∧
    max (hkDefaultColumnWidth.getD 0 0) (columnLongest [hkEntryW] 0) = 10 ∧
    hkTotalEntries [[hkEntryW]] < HK_COPY_TABLE_ENTRIES ∧
    (18 : Nat) ≠ 10 := by
  decide

/-- Claim C5, amended: in every fixed-width table renderer each emitted
data-row field occupies exactly the renderer's computed column width, which is
at least the maximum of the column's default minimum width and the longest
value observed in that column over all entries — and equal to that maximum in
the ES start-up renderer and in the schedule definition table renderer (per
time slot), while the copy-table renderer additionally enlarges its two
message-ID columns to the width of `HK_UNDEFINED_ENTRY` when unused rows
remain — so for all input row sets every emitted row's column boundaries
align. -/
theorem fixed_width_alignment :
    (∀ (startupEntries : List (List String)) (e : List String) (i : Nat),
        e ∈ startupEntries → i < 6 →
        (esField (esColumnWidths startupEntries) e i).length
            = (esColumnWidths startupEntries).getD i 0 ∧
          (esColumnWidths startupEntries).getD i 0
            = max (esDefaultColumnWidth.getD i 0) (columnLongest startupEntries i)) ∧
    (∀ (sdtEntries : List (List String)) (e : List String) (i : Nat),
        e ∈ sdtEntries → i < 6 →
        (sdtField (sdtColumnWidths sdtEntries) e i).length
            = (sdtColumnWidths sdtEntries).getD i 0 ∧
          (sdtColumnWidths sdtEntries).getD i 0
            = max (sdtDefaultColumnWidth.getD i 0) (columnLongest sdtEntries i)) ∧
    (∀ (allTableEntries : List (List (List String))) (copyTableEntries : List (List String))
        (e : List String) (i : Nat),
        copyTableEntries ∈ allTableEntries → e ∈ copyTableEntries → i < 5 →
        (hkField (hkFinalWidths allTableEntries) e i).length
            = (hkFinalWidths allTableEntries).getD i 0 ∧
          max ((e.getD i "").length) (hkDefaultColumnWidth.getD i 0)
            ≤ (hkFinalWidths allTableEntries).getD i 0) := by
  refine ⟨?_, ?_, ?_⟩
  · intro startupEntries e i he hi
    have hlen : (e.getD i "").length ≤ (esColumnWidths startupEntries).getD i 0 :=
      entry_le_getLongestStrings he (by simp [esDefaultColumnWidth]; omega)
    constructor
    · unfold esField
      exact padLeftJust_length hlen
    · unfold esColumnWidths
      exact getLongestStrings_getD (by simp [esDefaultColumnWidth]; omega)
  · intro sdtEntries e i he hi
    have hpos : sdtEntries.length > 0 := List.length_pos.mpr (List.ne_nil_of_mem he)
    have hwidths : sdtColumnWidths sdtEntries = getLongestStrings sdtEntries sdtDefaultColumnWidth := by
      unfold sdtColumnWidths
      rw [if_pos hpos]
    have hlen : (e.getD i "").length ≤ (sdtColumnWidths sdtEntries).getD i 0 := by
      rw [hwidths]
      exact entry_le_getLongestStrings he (by simp [sdtDefaultColumnWidth]; omega)
    constructor
    · unfold sdtField
      split
      · exact padLeftJust_length hlen
      · exact padRightJust_length hlen
    · rw [hwidths]
      exact getLongestStrings_getD (by simp [sdtDefaultColumnWidth]; omega)
  · intro allTableEntries copyTableEntries e i hes he hi
    have hlen : (e.getD i "").length ≤ (hkFinalWidths allTableEntries).getD i 0 :=
      hkFinalWidths_entry_le hes he (by omega)
    constructor
    · unfold hkField
      split
      · exact padLeftJust_length hlen
      · exact padRightJust_length hlen
    · exact max_le hlen (hkFinalWidths_ge_default (by omega))

/-- Claim C5, witness: the alignment equations at one concrete ES start-up
entry, one concrete schedule-definition entry, and one concrete copy-table
entry. -/
theorem fixed_width_alignment_witness :
    (esField (esColumnWidths [esEntryW]) esEntryW 1).length
      = (esColumnWidths [esEntryW]).getD 1 0 ∧
    (sdtField (sdtColumnWidths [sdtEntryW]) sdtEntryW 1).length
      = (sdtColumnWidths [sdtEntryW]).getD 1 0 ∧
    (hkField (hkFinalWidths [[hkEntryW]]) hkEntryW 0).length
      = (hkFinalWidths [[hkEntryW]]).getD 0 0 :=
  ⟨(fixed_width_alignment.1 [esEntryW] esEntryW 1 (by simp) (by omega)).1,
   (fixed_width_alignment.2.1 [sdtEntryW] sdtEntryW 1 (by simp) (by omega)).1,
   (fixed_width_alignment.2.2 [[hkEntryW]] [hkEntryW] hkEntryW 0 (by simp) (by simp)
     (by omega)).1⟩

/-- Claim C6: when exactly one of the two telemetry output files fails to open
(`openOutputFile` returns `None`), the itosRecFile script shows no error dialog
and still proceeds to write to both handles — including the failed one; only
when both fail does it show the dialog and abandon the outputs. -/
theorem itos_open_check_or_bug :
    itosTelemetryOpenCheck none (some 0) =
      { wroteTlm := true, wroteComb := true, dialogShown := false } ∧
    itosTelemetryOpenCheck (some 0) none =
      { wroteTlm := true, wroteComb := true, dialogShown := false } ∧
    itosTelemetryOpenCheck none none =
      { wroteTlm := false, wroteComb := false, dialogShown := true } := by
  decide

/-- Claim C7: with zero rows of required input data, typesHeader.py shows the
modal error dialog and halts without opening any output file, but
msgidHeader.py and itosRecFile.py call the unbound bare name `showErrorDialog`
and halt with a `NameError` instead of showing a dialog (still without opening
or writing any output file). -/
theorem zero_rows_halt_effects :
    ∀ (scriptName : String) (body : List ScriptEffect),
      msgidHeaderMain 0 1 body = [ScriptEffect.raiseNameError "showErrorDialog"] ∧
      msgidHeaderMain 1 0 body = [ScriptEffect.raiseNameError "showErrorDialog"] ∧
      itosRecFileMain 0 0 body = [ScriptEffect.raiseNameError "showErrorDialog"] ∧
      typesHeaderMain 0 scriptName body =
        [ScriptEffect.errorDialog ("No structure data supplied to script " ++ scriptName)] := by
  intro scriptName body
  exact ⟨rfl, rfl, rfl, rfl⟩

/-- Claim C7, witness: the zero-row traces at concrete arguments. -/
theorem zero_rows_halt_effects_witness :
    msgidHeaderMain 0 1 [] = [ScriptEffect.raiseNameError "showErrorDialog"] ∧
    msgidHeaderMain 1 0 [] = [ScriptEffect.raiseNameError "showErrorDialog"] ∧
    itosRecFileMain 0 0 [] = [ScriptEffect.raiseNameError "showErrorDialog"] ∧
    typesHeaderMain 0 "typesHeader.py" [] =
      [ScriptEffect.errorDialog ("No structure data supplied to script " ++ "typesHeader.py")] :=
  zero_rows_halt_effects "typesHeader.py" []

/-- Claim C8: for the parsed coefficient set `["1", "2", "3"]` the emitted
`PolynomialConversion` block lists only `1, 2` — the loop
`for index in range(1, len(coeffs) - 1)` omits the final coefficient, which
does not appear anywhere in the output. -/
theorem polynomial_drops_last_coefficient :
    getArrayFromString "1|2|3" '|' = ["1", "2", "3"] ∧
    outputPolynomial "" "var" (getArrayFromString "1|2|3" '|') =
      some "\nPolynomialConversion var_CONVERSION\x7b\n  coefficients = \x7b1, 2\x7d\n\x7d\n" ∧
    (outputPolynomial "" "var" (getArrayFromString "1|2|3" '|')).map
      (fun out => out.data.contains '3') = some false := by
  decide

/-- Claim C9, counterexample: in the ITOS record generator a row whose variable
name ends with `]` (the array member `arr[0]`) does produce an emitted member
line, while the array definition row is the one skipped. -/
theorem itos_emits_array_member_cex :
    outputStructureDefinition "S" false itosArrayRows (List.range 2) = .ok itosArrayResult ∧
    pyEndsWith "arr[0]" "]" = true ∧
    itosArrayResult.emitted = [(some "arr[0]", some "2")] ∧
    itosArrayResult.text = "  U1 arr[0] \x7bgenerateMnemonic=\"no\"\x7d" := by
  decide

/-- Claim C9, amended: in the types-header and ROS message generators a row
whose variable name ends with `]` never produces an emitted member line and
each distinct variable name is emitted at most once per structure; the ITOS
record generator instead filters rows with `isVariable` (array definitions are
skipped, array members are emitted) and likewise emits each distinct variable
name at most once per structure. -/
theorem member_loops_dedup :
    (∀ (structName : String) (rows : List TableRow),
        (∀ p ∈ typesHeaderMembers structName rows, pyEndsWith p.1 "]" = false) ∧
        ((typesHeaderMembers structName rows).map Prod.fst).Nodup) ∧
    (∀ (structName : String) (known : List String) (rows : List TableRow)
        (fields : List (String × String)),
        rosStructureFields structName known rows = .ok fields →
        ((fields.map Prod.fst).Nodup ∧ ∀ q ∈ fields, pyEndsWith q.1 "]" = false)) ∧
    (∀ (structureName : String) (isPacket : Bool) (rows : List ItosRow)
        (rowOrder : List Nat) (st' : ItosEmitState),
        outputStructureDefinition structureName isPacket rows rowOrder = .ok st' →
        ((st'.emitted.map Prod.fst).Nodup ∧ ∀ p ∈ st'.emitted, isVariable p.1 p.2 = true)) := by
  refine ⟨?_, ?_, ?_⟩
  · intro structName rows
    have h := typesHeaderMembersAux_inv structName rows []
    exact ⟨fun p hp => (h.1 p hp).2, h.2⟩
  · intro structName known rows fields h
    exact rosStructureFieldsAux_inv structName known rows [] [] fields h
      (by simp) (by simp) (by simp)
  · intro structureName isPacket rows rowOrder st' h
    have h2 := outputStructureDefinition_inv h
    exact ⟨h2.2.1, h2.2.2⟩

/-- Claim C9, witness: the deduplication conclusions at concrete tables for all
three generators. -/
theorem member_loops_dedup_witness :
    ((typesHeaderMembers "S" typesRowsW).map Prod.fst).Nodup ∧
    (rosFieldsW.map Prod.fst).Nodup ∧
    (itosArrayResult.emitted.map Prod.fst).Nodup :=
  ⟨(member_loops_dedup.1 "S" typesRowsW).2,
   (member_loops_dedup.2.1 "S" ["S"] typesRowsW rosFieldsW (by decide)).1,
   (member_loops_dedup.2.2 "S" false itosArrayRows (List.range 2) itosArrayResult (by decide)).1⟩

/-- Claim C10: `extractMessageID` and `extractCommandID` return the fallback
values `"0x0000"` / `"0x000"` for every input without a hexadecimal-digit
prefix, but for `"12z"` — which begins with hex digits and has trailing
non-hex characters — the regular expression matches while `int(msgID, 16)`
raises `ValueError`, so neither function is total over arbitrary strings. -/
theorem extract_fallback_and_partiality :
    (∀ s : String, reMatchHex s = false →
        extractMessageID s = some "0x0000" ∧ extractCommandID s = some "0x000") ∧
    (reMatchHex "12z" = true ∧ pyIntHex "12z" = none ∧
      extractMessageID "12z" = none ∧ extractCommandID "12z" = none) := by
  constructor
  · intro s h
    constructor
    · unfold extractMessageID
      rw [if_neg (by simp [h])]
      decide
    · unfold extractCommandID
      rw [if_neg (by simp [h])]
      decide
  · decide

/-- Claim C10, witness: the fallback branch at the non-hexadecimal input
`"zz"`. -/
theorem extract_fallback_and_partiality_witness :
    reMatchHex "zz" = false ∧ extractMessageID "zz" = some "0x0000" ∧
    extractCommandID "zz" = some "0x000" :=
  ⟨by decide, (extract_fallback_and_partiality.1 "zz" (by decide)).1,
   (extract_fallback_and_partiality.1 "zz" (by decide)).2⟩

end CCDD
